import Mathlib

/-!
Verification of the `KeyRing` facade from `nkms/crypto/keyring.py`.

The class composes external cryptographic primitives (keccak-256 hashing,
an ECDSA-style signature scheme, a public-key cipher, a proxy-re-encryption
algorithm's private-to-public transform, and a secure random source).  Those
primitives are collaborator libraries, not part of the source under
verification, so the embedding is parameterised over them by a `Crypto`
structure; theorems hold for every instantiation of the primitives.

Python byte strings are modelled as `List Nat`.  Methods are embedded in
state-passing style, returning the result paired with the (possibly updated)
`self`, so that the absence of mutation in the source is a provable fact
rather than an artefact of the embedding: each method body in the source
contains no assignment to `self`, hence its translation returns `self`
unchanged.  The optional `pubkey` parameters of `verify` and `encrypt` are
`Option Bytes` (`none` models an omitted argument / Python `None`), and
Python's truthiness test `if not pubkey` is translated exactly: `None` and
the empty byte string are both falsy.
-/

/-- Byte strings (Python `bytes`) as lists of naturals. -/
abbrev Bytes := List Nat

/-- Typed errors of the specification's error taxonomy that the embedded
operations can surface (only `InvalidLength` is needed by the claims). -/
inductive CryptoError where
  | InvalidLength
deriving DecidableEq, Repr

/-- A proxy-re-encryption algorithm instance, as produced by
`pre_from_algorithm`; only its `priv2pub` transform is used by the core. -/
structure PRE where
  priv2pub : Bytes → Bytes

/-- The external collaborator primitives consumed by the core (spec section 6):
keccak-256, the signature scheme's sign/verify (applied by the keypair objects
of `nkms.crypto.keypairs` to their stored keys), the public-key cipher's
encrypt/decrypt, the secure random source, the configured default
proxy-re-encryption algorithm `pre_from_algorithm(default_algorithm)`, and the
private-to-public derivations used when a keypair is built from raw private
bytes.  These are abstract: every theorem below holds for any instantiation. -/
structure Crypto where
  keccak256 : Bytes → Bytes
  sigSign : Bytes → Bytes → Bytes
  sigVerify : Bytes → Bytes → Bytes → Bool
  encEncrypt : Bytes → Bytes → Bytes → Bytes
  encDecrypt : Bytes → Bytes → Bytes
  random : Int → Except CryptoError Bytes
  defaultPre : PRE
  sigPriv2pub : Bytes → Bytes
  encPriv2pub : Bytes → Bytes

/-- A signing keypair: the state of a `SigningKeypair` object. -/
structure SigningKeypair where
  priv_key : Bytes
  pub_key : Bytes
deriving DecidableEq, Repr

/-- An encrypting keypair: the state of an `EncryptingKeypair` object. -/
structure EncryptingKeypair where
  priv_key : Bytes
  pub_key : Bytes
deriving DecidableEq, Repr

/-- The state of a `KeyRing` object: the two keypairs set in `__init__` and
the proxy-re-encryption algorithm instance `self.pre`. -/
structure KeyRing where
  sig_keypair : SigningKeypair
  enc_keypair : EncryptingKeypair
  pre : PRE

/-- Modelled from the spec: `SigningKeypair(priv)` / `EncryptingKeypair(priv)`
live in `nkms/crypto/keypairs.py`, which is not under `src/`.  Per spec
sections 3 and 4.1, when raw private bytes are supplied the identity is
constructed from exactly that private material and the public point is its
deterministic public counterpart derived via the primitive library.  This
models `KeyRing.__init__` on the supplied-keys path, including
`self.pre = pre_from_algorithm(default_algorithm)`. -/
def mkKeyRing (C : Crypto) (sig_privkey enc_privkey : Bytes) : KeyRing :=
  { sig_keypair := { priv_key := sig_privkey, pub_key := C.sigPriv2pub sig_privkey }
    enc_keypair := { priv_key := enc_privkey, pub_key := C.encPriv2pub enc_privkey }
    pre := C.defaultPre }

/-- Property accessor `sig_pubkey`: `return self.sig_keypair.pub_key`. -/
def KeyRing.sig_pubkey (kr : KeyRing) : Bytes :=
  kr.sig_keypair.pub_key

/-- Property accessor `sig_privkey`: `return self.sig_keypair.priv_key`. -/
def KeyRing.sig_privkey (kr : KeyRing) : Bytes :=
  kr.sig_keypair.priv_key

/-- Property accessor `enc_pubkey`: `return self.enc_keypair.pub_key`. -/
def KeyRing.enc_pubkey (kr : KeyRing) : Bytes :=
  kr.enc_keypair.pub_key

/-- Property accessor `enc_privkey`: `return self.enc_keypair.priv_key`. -/
def KeyRing.enc_privkey (kr : KeyRing) : Bytes :=
  kr.enc_keypair.priv_key

/-- `KeyRing.sign`:
`msg_digest = sha3.keccak_256(message).digest()`;
`return self.sig_keypair.sign(msg_digest)` — the keypair signs with its
stored private key. -/
def KeyRing.sign (kr : KeyRing) (C : Crypto) (message : Bytes) : Bytes × KeyRing :=
  let msg_digest := C.keccak256 message
  (C.sigSign kr.sig_keypair.priv_key msg_digest, kr)

/-- `KeyRing.verify`:
`if not pubkey: pubkey = self.sig_keypair.pub_key`;
`msg_digest = sha3.keccak_256(message).digest()`;
`return self.sig_keypair.verify(msg_digest, signature, pubkey=pubkey)`.
Python truthiness: `None` and `b""` are both falsy. -/
def KeyRing.verify (kr : KeyRing) (C : Crypto) (message signature : Bytes)
    (pubkey : Option Bytes := none) : Bool × KeyRing :=
  let pk := match pubkey with
    | none => kr.sig_keypair.pub_key
    | some l => if l = [] then kr.sig_keypair.pub_key else l
  let msg_digest := C.keccak256 message
  (C.sigVerify msg_digest signature pk, kr)

/-- `KeyRing.encrypt`:
`if not pubkey: pubkey = self.enc_keypair.pub_key`;
`return self.enc_keypair.encrypt(plaintext, pubkey=pubkey)` — the keypair
encrypts with its stored private key and the recipient public key. -/
def KeyRing.encrypt (kr : KeyRing) (C : Crypto) (plaintext : Bytes)
    (pubkey : Option Bytes := none) : Bytes × KeyRing :=
  let pk := match pubkey with
    | none => kr.enc_keypair.pub_key
    | some l => if l = [] then kr.enc_keypair.pub_key else l
  (C.encEncrypt kr.enc_keypair.priv_key plaintext pk, kr)

/-- `KeyRing.decrypt`: `return self.enc_keypair.decrypt(ciphertext)`. -/
def KeyRing.decrypt (kr : KeyRing) (C : Crypto) (ciphertext : Bytes) : Bytes × KeyRing :=
  (C.encDecrypt kr.enc_keypair.priv_key ciphertext, kr)

/-- `KeyRing.secure_random`: `return random(length)` — a direct delegation to
the secure random source, with no length check of its own. -/
def KeyRing.secure_random (kr : KeyRing) (C : Crypto) (length : Int) :
    Except CryptoError Bytes × KeyRing :=
  (C.random length, kr)

/-- `KeyRing.derive_path_key(path, is_pub=True)`:
`key = sha3.keccak_256(self.enc_privkey + path).digest()`;
`return self.pre.priv2pub(key) if is_pub else key`. -/
def KeyRing.derive_path_key (kr : KeyRing) (C : Crypto) (path : Bytes)
    (is_pub : Bool := true) : Bytes × KeyRing :=
  let key := C.keccak256 (kr.enc_privkey ++ path)
  (if is_pub then kr.pre.priv2pub key else key, kr)

/-- A concrete instantiation of the collaborator primitives, used to evaluate
the embedded operations on closed inputs.  `keccak256` is deliberately
non-injective so that distinct messages with equal digests exist. -/
def testCrypto : Crypto :=
  { keccak256 := fun bs => [bs.length % 3]
    sigSign := fun priv digest => priv ++ digest
    sigVerify := fun digest s pk => decide (s = pk ++ digest)
    encEncrypt := fun priv pt pk => priv ++ pt ++ pk
    encDecrypt := fun _ ct => ct
    random := fun n => if n < 0 then .error .InvalidLength else .ok (List.replicate n.toNat 0)
    defaultPre := { priv2pub := fun k => 9 :: k }
    sigPriv2pub := fun p => 1 :: p
    encPriv2pub := fun p => 2 :: p }

/-- A concrete `KeyRing` built from explicit private keys, for evaluation. -/
def testKR : KeyRing := mkKeyRing testCrypto [3] [4]

/-- Claim C1: for every path, `derive_path_key` computes the seed
`KECCAK256(encrypting_private_key || path)` with the private key first in the
concatenation; with `want_public = false` it returns that seed itself, and
with `want_public = true` it returns exactly the configured
proxy-re-encryption algorithm's `priv2pub` applied to that same seed, i.e.
`priv2pub` of the `want_public = false` result. -/
theorem derive_path_key_spec (C : Crypto) (kr : KeyRing) (path : Bytes) :
    (kr.derive_path_key C path false).1 = C.keccak256 (kr.enc_keypair.priv_key ++ path) ∧
    (kr.derive_path_key C path true).1 = kr.pre.priv2pub ((kr.derive_path_key C path false).1) :=
  ⟨rfl, rfl⟩

/-- Claim C2: `sign(message)` computes `KECCAK256(message)` and returns
exactly the signature scheme's sign applied to that digest with the KeyRing's
signing private key; moreover the message reaches the scheme only through the
digest — two messages with equal digests produce the same sign call. -/
theorem sign_spec (C : Crypto) (kr : KeyRing) (m : Bytes) :
    (kr.sign C m).1 = C.sigSign kr.sig_keypair.priv_key (C.keccak256 m) ∧
    ∀ m2 : Bytes, C.keccak256 m = C.keccak256 m2 → (kr.sign C m).1 = (kr.sign C m2).1 := by
  refine ⟨rfl, fun m2 h => ?_⟩
  simp [KeyRing.sign, h]

/-- Witness for C2 on concrete inputs: under `testCrypto` the messages
`[1, 2]` and `[8, 9]` have equal digests, and `sign_spec` yields both the
digest equation and the equality of the two signatures. -/
theorem sign_spec_witness :
    (testKR.sign testCrypto [1, 2]).1
      = testCrypto.sigSign testKR.sig_keypair.priv_key (testCrypto.keccak256 [1, 2]) ∧
    (testKR.sign testCrypto [1, 2]).1 = (testKR.sign testCrypto [8, 9]).1 :=
  ⟨(sign_spec testCrypto testKR [1, 2]).1,
   (sign_spec testCrypto testKR [1, 2]).2 [8, 9] (by decide)⟩

/-- Claim C3: `verify(message, signature, pubkey)` uses the KeyRing's own
signing public key when `pubkey` is omitted, recomputes
`digest = KECCAK256(message)` (the same digest `sign` computes), and returns
the boolean result of the signature scheme's verify on
`(digest, signature, pubkey)`; a supplied non-empty pubkey is used as given.
Omission is the default of the parameter. -/
theorem verify_spec (C : Crypto) (kr : KeyRing) (m s : Bytes) :
    kr.verify C m s = kr.verify C m s none ∧
    (kr.verify C m s none).1 = C.sigVerify (C.keccak256 m) s kr.sig_keypair.pub_key ∧
    ∀ pk : Bytes, pk ≠ [] →
      (kr.verify C m s (some pk)).1 = C.sigVerify (C.keccak256 m) s pk := by
  refine ⟨rfl, rfl, fun pk h => ?_⟩
  simp [KeyRing.verify, h]

/-- Witness for C3 on concrete inputs: the omitted-pubkey call checks against
the KeyRing's own signing public key, and a supplied non-empty pubkey `[7]`
is used as given. -/
theorem verify_spec_witness :
    (testKR.verify testCrypto [1] [2] none).1
      = testCrypto.sigVerify (testCrypto.keccak256 [1]) [2] testKR.sig_keypair.pub_key ∧
    (testKR.verify testCrypto [1] [2] (some [7])).1
      = testCrypto.sigVerify (testCrypto.keccak256 [1]) [2] [7] :=
  ⟨(verify_spec testCrypto testKR [1] [2]).2.1,
   (verify_spec testCrypto testKR [1] [2]).2.2 [7] (by decide)⟩

/-- Claim C4 counterexample: explicitly passing the empty byte string as
`pubkey` to `encrypt` does not delegate to the cipher with exactly the
supplied pubkey — the call proceeds with the KeyRing's own encrypting public
key instead. -/
theorem encrypt_empty_pubkey_counterexample :
    (testKR.encrypt testCrypto [5] (some [])).1
        ≠ testCrypto.encEncrypt testKR.enc_keypair.priv_key [5] [] ∧
    (testKR.encrypt testCrypto [5] (some [])).1
        = testCrypto.encEncrypt testKR.enc_keypair.priv_key [5] testKR.enc_keypair.pub_key := by
  constructor <;> decide

/-- Claim C4 (amended): `encrypt(plaintext, pubkey)` uses the KeyRing's own
encrypting public key as the recipient when `pubkey` is omitted or supplied
empty, and delegates to the public-key encryption primitive with exactly the
supplied pubkey whenever that pubkey is non-empty; it is total, so it never
raises merely because `pubkey` was omitted. -/
theorem encrypt_spec_amended (C : Crypto) (kr : KeyRing) (pt : Bytes) :
    kr.encrypt C pt = kr.encrypt C pt none ∧
    (kr.encrypt C pt none).1 = C.encEncrypt kr.enc_keypair.priv_key pt kr.enc_keypair.pub_key ∧
    (kr.encrypt C pt (some [])).1
      = C.encEncrypt kr.enc_keypair.priv_key pt kr.enc_keypair.pub_key ∧
    ∀ pk : Bytes, pk ≠ [] →
      (kr.encrypt C pt (some pk)).1 = C.encEncrypt kr.enc_keypair.priv_key pt pk := by
  refine ⟨rfl, rfl, rfl, fun pk h => ?_⟩
  simp [KeyRing.encrypt, h]

/-- Witness for the amended C4 on concrete inputs: an omitted pubkey encrypts
to self, and a supplied non-empty pubkey `[7]` is used exactly. -/
theorem encrypt_spec_amended_witness :
    (testKR.encrypt testCrypto [5] none).1
      = testCrypto.encEncrypt testKR.enc_keypair.priv_key [5] testKR.enc_keypair.pub_key ∧
    (testKR.encrypt testCrypto [5] (some [7])).1
      = testCrypto.encEncrypt testKR.enc_keypair.priv_key [5] [7] :=
  ⟨(encrypt_spec_amended testCrypto testKR [5]).2.1,
   (encrypt_spec_amended testCrypto testKR [5]).2.2.2 [7] (by decide)⟩

/-- Claim C5: `derive_path_key` is deterministic — two calls with the same
`path` and `want_public` flag on KeyRings constructed with the same
encrypting private key (regardless of the signing key) yield identical
results. -/
theorem derive_path_key_deterministic (C : Crypto) (s1 s2 e path : Bytes) (b : Bool) :
    ((mkKeyRing C s1 e).derive_path_key C path b).1
      = ((mkKeyRing C s2 e).derive_path_key C path b).1 :=
  rfl

/-- Claim C6: the empty path is legal, and
`derive_path_key(b"", want_public=false)` returns exactly
`KECCAK256(encrypting_private_key)`. -/
theorem derive_path_key_empty_path (C : Crypto) (kr : KeyRing) :
    (kr.derive_path_key C [] false).1 = C.keccak256 kr.enc_keypair.priv_key := by
  simp [KeyRing.derive_path_key, KeyRing.enc_privkey]

/-- Claim C7: `secure_random(length)` delegates directly to the secure random
source; whenever that source returns exactly `n` bytes for every `n ≥ 0` and
fails with `InvalidLength` for every `n < 0`, `secure_random` returns exactly
`length` bytes for non-negative `length` and fails with `InvalidLength` for
negative `length`. -/
theorem secure_random_spec (C : Crypto) (kr : KeyRing)
    (hok : ∀ n : Int, 0 ≤ n → ∃ bs : Bytes, C.random n = .ok bs ∧ bs.length = n.toNat)
    (hneg : ∀ n : Int, n < 0 → C.random n = .error .InvalidLength)
    (len : Int) :
    (0 ≤ len → ∃ bs : Bytes,
        (kr.secure_random C len).1 = .ok bs ∧ bs.length = len.toNat) ∧
    (len < 0 → (kr.secure_random C len).1 = .error .InvalidLength) :=
  ⟨fun h => hok len h, fun h => hneg len h⟩

/-- Witness for C7 on concrete inputs: `testCrypto.random` satisfies the
source contract, so `secure_random` on `testKR` returns five bytes at length
five and `InvalidLength` at length `-1`. -/
theorem secure_random_spec_witness :
    (∃ bs : Bytes, (testKR.secure_random testCrypto 5).1 = .ok bs ∧ bs.length = 5) ∧
    (testKR.secure_random testCrypto (-1)).1 = .error .InvalidLength := by
  have hok : ∀ n : Int, 0 ≤ n →
      ∃ bs : Bytes, testCrypto.random n = .ok bs ∧ bs.length = n.toNat := by
    intro n hn
    exact ⟨List.replicate n.toNat 0, by simp [testCrypto, Int.not_lt.mpr hn], by simp⟩
  have hneg : ∀ n : Int, n < 0 → testCrypto.random n = .error .InvalidLength := by
    intro n hn
    simp [testCrypto, hn]
  exact ⟨(secure_random_spec testCrypto testKR hok hneg 5).1 (by decide),
         (secure_random_spec testCrypto testKR hok hneg (-1)).2 (by decide)⟩

/-- Claim C8: every operation leaves the KeyRing's state — both keypairs,
hence all four key fields — unchanged, and the four accessors are pure reads
of the fields set at construction. -/
theorem keyring_state_invariant (C : Crypto) (kr : KeyRing)
    (m s pt ct path : Bytes) (po qo : Option Bytes) (n : Int) (b : Bool) :
    (kr.sign C m).2 = kr ∧
    (kr.verify C m s po).2 = kr ∧
    (kr.encrypt C pt qo).2 = kr ∧
    (kr.decrypt C ct).2 = kr ∧
    (kr.secure_random C n).2 = kr ∧
    (kr.derive_path_key C path b).2 = kr ∧
    kr.sig_pubkey = kr.sig_keypair.pub_key ∧
    kr.sig_privkey = kr.sig_keypair.priv_key ∧
    kr.enc_pubkey = kr.enc_keypair.pub_key ∧
    kr.enc_privkey = kr.enc_keypair.priv_key :=
  ⟨rfl, rfl, rfl, rfl, rfl, rfl, rfl, rfl, rfl, rfl⟩

/-- Claim C9: `verify` and `encrypt` substitute the KeyRing's own key
whenever the supplied pubkey is falsy — an explicit empty byte string (like
an explicit `None`, which the embedding identifies with omission) behaves
exactly as an omitted argument, and the operation proceeds against the
KeyRing's own public key. -/
theorem falsy_pubkey_treated_as_omitted (C : Crypto) (kr : KeyRing) (m s pt : Bytes) :
    kr.verify C m s (some []) = kr.verify C m s none ∧
    (kr.verify C m s (some [])).1 = C.sigVerify (C.keccak256 m) s kr.sig_keypair.pub_key ∧
    kr.encrypt C pt (some []) = kr.encrypt C pt none ∧
    (kr.encrypt C pt (some [])).1
      = C.encEncrypt kr.enc_keypair.priv_key pt kr.enc_keypair.pub_key :=
  ⟨rfl, rfl, rfl, rfl⟩

/-- Claim C10: the `want_public` flag of `derive_path_key` defaults to true —
a call supplying only the path equals the `is_pub = true` call and returns
the derived public point, `priv2pub` of the seed, not the private scalar. -/
theorem derive_path_key_default_public (C : Crypto) (kr : KeyRing) (path : Bytes) :
    kr.derive_path_key C path = kr.derive_path_key C path true ∧
    (kr.derive_path_key C path).1 = kr.pre.priv2pub ((kr.derive_path_key C path false).1) :=
  ⟨rfl, rfl⟩
